import Mathlib

/-!
# Verification of the swizzle-editor configuration core

Shallow embedding of the configuration transform, validator, canvas-resize
renormalizer (`src/utils/configTransform.ts`) and the sprite-sequence
detector (`src/utils/sequenceDetector.ts`) of the swizzle-editor repository,
together with theorems settling the specified properties.

Modelling conventions:
* Parsed YAML documents / JavaScript runtime values are modelled by the
  inductive type `Yaml`: `null`, booleans, numbers (as `ℚ` — the claims under
  study are structural, no floating-point rounding is involved), strings,
  arrays and objects (ordered key/value lists).  An absent property is
  `Option.none`, a property holding YAML `null` is `some Yaml.null`,
  matching the JavaScript `undefined` / `null` distinction.
* The external `js-yaml` codec (`dump`/`load`) is not part of this
  repository; per the spec it loses no information on numbers, booleans,
  strings, nested objects and arrays.  A document is therefore represented
  by its parsed value and `load ∘ dump` is the identity on that domain.
-/

namespace Swizzle

/-- A parsed YAML document / plain JavaScript value. -/
inductive Yaml where
  | null : Yaml
  | bool (b : Bool) : Yaml
  | num (q : ℚ) : Yaml
  | str (s : String) : Yaml
  | arr (items : List Yaml) : Yaml
  | map (entries : List (String × Yaml)) : Yaml

/-- JavaScript property read `v[k]`: `none` models `undefined`.  Arrays and
primitives have none of the (non-index, non-`length`) properties the source
ever reads, so only objects yield values. -/
def Yaml.getField : Yaml → String → Option Yaml
  | .map kvs, k => kvs.lookup k
  | _, _ => none

/-- `isRecord` from the source: `typeof value === 'object' && value !== null`.
In JavaScript arrays are objects, so they pass this test too. -/
def isRecord : Yaml → Bool
  | .map _ => true
  | .arr _ => true
  | _ => false

/-- `isRecord` lifted to a possibly-absent value (`isRecord(value.foo)`). -/
def isRecordOpt : Option Yaml → Bool
  | some v => isRecord v
  | none => false

/-- `typeof v === 'number'` on a possibly-absent value. -/
def typeofNumber : Option Yaml → Bool
  | some (.num _) => true
  | _ => false

/-- `typeof v === 'string'` on a possibly-absent value. -/
def typeofString : Option Yaml → Bool
  | some (.str _) => true
  | _ => false

/-- `typeof v === 'boolean'` on a possibly-absent value. -/
def typeofBoolean : Option Yaml → Bool
  | some (.bool _) => true
  | _ => false

/-- JavaScript truthiness of a possibly-absent value (`!v` negated).
`undefined`, `null`, `false`, `0` and `""` are falsy; objects and arrays are
always truthy.  (`NaN` does not arise in this domain.) -/
def truthy : Option Yaml → Bool
  | none => false
  | some .null => false
  | some (.bool b) => b
  | some (.num q) => decide (q ≠ 0)
  | some (.str s) => decide (s ≠ "")
  | some (.arr _) => true
  | some (.map _) => true

/-- `isEmitterConfig` from `configTransform.ts`: the minimal shape-filter an
imported emitter record must pass.  The source checks `typeof value.type ===
'string'` right after `isRecord(value)`; on a non-record every property read
yields `undefined`, so matching on the `type` field first is equivalent and
the `isRecord` conjunct is kept explicitly. -/
def isEmitterConfig (value : Yaml) : Bool :=
  if isRecord value = false then false
  else
    match value.getField "type" with
    | some (.str t) =>
      let rateRequired := t != "burst" && t != "triggered"
      if rateRequired && !typeofNumber (value.getField "emissionRate") then false
      else if !isRecordOpt (value.getField "position") then false
      else if !typeofNumber ((value.getField "position").bind (·.getField "x"))
          || !typeofNumber ((value.getField "position").bind (·.getField "y")) then false
      else isRecordOpt (value.getField "particle")
          && typeofString ((value.getField "particle").bind (·.getField "type"))
    | _ => false

/-- `ParsedYamlConfig` from the source: the loosely-typed view of the parsed
document (`system?: unknown-record`, `emitters?: unknown`). -/
structure ParsedYamlConfig where
  system : Option Yaml
  emitters : Option Yaml

/-- `toParsedYamlConfig` from the source. -/
def toParsedYamlConfig (value : Yaml) : ParsedYamlConfig :=
  if isRecord value then
    { system := match value.getField "system" with
        | some s => if isRecord s then some s else none
        | none => none
      emitters := value.getField "emitters" }
  else { system := none, emitters := none }

/-- `EditorConfig.system` from the store types. -/
structure SystemConfig where
  maxParticles : ℚ
  autoStart : Bool
deriving DecidableEq

/-- `EditorConfig`: the editor's document model.  Emitters are kept as the
raw records the import accepted (the source stores them untranslated). -/
@[ext]
structure EditorConfig where
  system : SystemConfig
  emitters : List Yaml

/-- `yamlToEditorConfig` from the source, on the parsed document value
(the `load` half of the codec is the identity on this domain, see the header
comment).  Permissive: substitutes defaults, filters malformed emitters. -/
def yamlToEditorConfig (v : Yaml) : EditorConfig :=
  let parsed := toParsedYamlConfig v
  let emitters := match parsed.emitters with
    | some (.arr items) => items.filter isEmitterConfig
    | _ => []
  let maxParticles := match parsed.system.bind (·.getField "maxParticles") with
    | some (.num q) => q
    | _ => 1000
  let autoStart := match parsed.system.bind (·.getField "autoStart") with
    | some (.bool b) => b
    | _ => true
  { system := { maxParticles := maxParticles, autoStart := autoStart }
    emitters := emitters }

/-- `editorConfigToYAML` from the source, producing the document value that
is dumped (the emitters are shallow-copied by the source, which is the
identity at the value level; `dump` is information-preserving per the spec). -/
def editorConfigToYAML (config : EditorConfig) : Yaml :=
  .map [("system", .map [("maxParticles", .num config.system.maxParticles),
                         ("autoStart", .bool config.system.autoStart)]),
        ("emitters", .arr config.emitters)]

/-- The full-default config produced when nothing usable is parsed. -/
def defaultEditorConfig : EditorConfig :=
  { system := { maxParticles := 1000, autoStart := true }, emitters := [] }

/-- `yamlToEditorConfig` including its error path: the source rethrows a
`js-yaml` parse error as `Failed to parse YAML: …` and runs the permissive
extraction only on a successfully parsed document. -/
def yamlToEditorConfigFromText (parseResult : Except String Yaml) :
    Except String EditorConfig :=
  match parseResult with
  | .error msg => .error ("Failed to parse YAML: " ++ msg)
  | .ok v => .ok (yamlToEditorConfig v)

/-! ### Helper characterizations of the `typeof` tests -/

theorem typeofNumber_iff (o : Option Yaml) :
    typeofNumber o = true ↔ ∃ q, o = some (.num q) := by
  rcases o with _ | v
  · simp [typeofNumber]
  · cases v <;> simp [typeofNumber]

theorem typeofString_iff (o : Option Yaml) :
    typeofString o = true ↔ ∃ s, o = some (.str s) := by
  rcases o with _ | v
  · simp [typeofString]
  · cases v <;> simp [typeofString]

theorem typeofBoolean_iff (o : Option Yaml) :
    typeofBoolean o = true ↔ ∃ b, o = some (.bool b) := by
  rcases o with _ | v
  · simp [typeofBoolean]
  · cases v <;> simp [typeofBoolean]

/-- Unfolding lemma for the emitters field of an imported config. -/
theorem yamlToEditorConfig_emitters (v : Yaml) :
    (yamlToEditorConfig v).emitters =
      match (toParsedYamlConfig v).emitters with
      | some (.arr items) => items.filter isEmitterConfig
      | _ => [] := rfl

/-- Unfolding lemma for the system field of an imported config. -/
theorem yamlToEditorConfig_system (v : Yaml) :
    (yamlToEditorConfig v).system =
      { maxParticles := match (toParsedYamlConfig v).system.bind (·.getField "maxParticles") with
          | some (.num q) => q
          | _ => 1000
        autoStart := match (toParsedYamlConfig v).system.bind (·.getField "autoStart") with
          | some (.bool b) => b
          | _ => true } := rfl

/-- The shape-filter is idempotent as a list filter. -/
theorem filter_isEmitterConfig_idem (l : List Yaml) :
    (l.filter isEmitterConfig).filter isEmitterConfig = l.filter isEmitterConfig := by
  rw [List.filter_filter]
  simp

/-- Exporting and re-importing keeps the system config verbatim and re-runs
the shape-filter on the emitters. -/
theorem import_export (c : EditorConfig) :
    yamlToEditorConfig (editorConfigToYAML c) =
      ⟨c.system, c.emitters.filter isEmitterConfig⟩ := rfl

/-- C1: Round-trip law — an `EditorConfig` that is itself an output of
`yamlToEditorConfig` survives an export/import cycle unchanged: every field
that passed the import shape-filter is preserved by
`yamlToEditorConfig ∘ editorConfigToYAML`. -/
theorem roundtrip_import_export_import (v : Yaml) :
    yamlToEditorConfig (editorConfigToYAML (yamlToEditorConfig v)) =
      yamlToEditorConfig v := by
  rw [import_export]
  ext : 1
  · rfl
  · show ((yamlToEditorConfig v).emitters.filter isEmitterConfig : List Yaml) = _
    rw [yamlToEditorConfig_emitters]
    rcases h : (toParsedYamlConfig v).emitters with _ | w
    · simp
    · cases w <;> simp [filter_isEmitterConfig_idem]

/-- The import shape check, stated the way the spec enumerates it: `type` is
a string; `position.x`/`position.y` are numbers; `particle.type` is a
string; and, for types other than `burst`/`triggered`, `emissionRate` is a
number. -/
def emitterShapeSpec (e : Yaml) : Prop :=
  (∃ t, e.getField "type" = some (.str t) ∧
    (t ≠ "burst" ∧ t ≠ "triggered" → ∃ r, e.getField "emissionRate" = some (.num r))) ∧
  (∃ p, e.getField "position" = some p ∧
    (∃ x, p.getField "x" = some (.num x)) ∧ (∃ y, p.getField "y" = some (.num y))) ∧
  (∃ pc, e.getField "particle" = some pc ∧ ∃ pt, pc.getField "type" = some (.str pt))

/-- A field read that yields a value forces the read value to be an object
field, hence the parent is an object (record). -/
theorem isRecord_of_getField {e : Yaml} {k : String} {w : Yaml}
    (h : e.getField k = some w) : isRecord e = true := by
  cases e <;> simp [Yaml.getField, isRecord] at h ⊢

/-- Characterization of `typeof o?.[k] === 'number'`. -/
theorem getField_num_bind_iff (o : Option Yaml) (k : String) :
    typeofNumber (o.bind (·.getField k)) = true ↔
      ∃ p, o = some p ∧ ∃ q, p.getField k = some (.num q) := by
  rcases o with _ | p
  · simp [Option.none_bind, typeofNumber]
  · simp [Option.some_bind, typeofNumber_iff]

/-- Characterization of `typeof o?.[k] === 'string'`. -/
theorem getField_str_bind_iff (o : Option Yaml) (k : String) :
    typeofString (o.bind (·.getField k)) = true ↔
      ∃ p, o = some p ∧ ∃ s, p.getField k = some (.str s) := by
  rcases o with _ | p
  · simp [Option.none_bind, typeofString]
  · simp [Option.some_bind, typeofString_iff]

/-- C3: Import shape-filter — when the parsed `emitters` value is an array,
the import keeps exactly the entries passing the minimal shape check, in
order, silently dropping the rest; and the shape check holds exactly when
`type` is a string, `position.x`/`position.y` are numbers, `particle.type`
is a string and, for types other than burst/triggered, `emissionRate` is a
number. -/
theorem import_shape_filter :
    (∀ (v : Yaml) (items : List Yaml),
      (toParsedYamlConfig v).emitters = some (.arr items) →
        (yamlToEditorConfig v).emitters = items.filter isEmitterConfig) ∧
    (∀ e : Yaml, isEmitterConfig e = true ↔ emitterShapeSpec e) := by
  refine ⟨fun v items h => by rw [yamlToEditorConfig_emitters, h], fun e => ?_⟩
  constructor
  · intro h
    unfold isEmitterConfig at h
    split at h
    · simp at h
    · split at h
      case _ t ht =>
        simp only [] at h
        split_ifs at h with h1 h2 h3
        have hX : typeofNumber ((e.getField "position").bind (·.getField "x")) = true := by
          revert h3
          cases typeofNumber ((e.getField "position").bind (·.getField "x")) <;> simp
        have hY : typeofNumber ((e.getField "position").bind (·.getField "y")) = true := by
          revert h3
          cases typeofNumber ((e.getField "position").bind (·.getField "y")) <;> simp
        rw [Bool.and_eq_true] at h
        obtain ⟨hpcr, hpts⟩ := h
        refine ⟨⟨t, ht, fun hbt => ?_⟩, ?_, ?_⟩
        · have hA : (t != "burst" && t != "triggered") = true := by
            simp [bne_iff_ne, hbt.1, hbt.2]
          have hN : typeofNumber (e.getField "emissionRate") = true := by
            revert h1
            rw [hA]
            cases typeofNumber (e.getField "emissionRate") <;> simp
          exact (typeofNumber_iff _).mp hN
        · obtain ⟨p, hp, x, hx⟩ := (getField_num_bind_iff _ _).mp hX
          obtain ⟨p', hp', y, hy⟩ := (getField_num_bind_iff _ _).mp hY
          rw [hp] at hp'
          obtain rfl : p = p' := by injection hp'
          exact ⟨p, hp, ⟨x, hx⟩, ⟨y, hy⟩⟩
        · obtain ⟨pc, hpc, pt, hpt⟩ := (getField_str_bind_iff _ _).mp hpts
          exact ⟨pc, hpc, pt, hpt⟩
      all_goals simp at h
  · rintro ⟨⟨t, ht, hrt⟩, ⟨p, hp, ⟨x, hx⟩, ⟨y, hy⟩⟩, ⟨pc, hpc, pt, hpt⟩⟩
    have hrec : isRecord e = true := isRecord_of_getField ht
    have hpos : isRecordOpt (e.getField "position") = true := by
      rw [hp]
      exact isRecord_of_getField hx
    have hX : typeofNumber ((e.getField "position").bind (·.getField "x")) = true := by
      rw [hp, Option.some_bind, hx]
      rfl
    have hY : typeofNumber ((e.getField "position").bind (·.getField "y")) = true := by
      rw [hp, Option.some_bind, hy]
      rfl
    have hpcr : isRecordOpt (e.getField "particle") = true := by
      rw [hpc]
      exact isRecord_of_getField hpt
    have hpts : typeofString ((e.getField "particle").bind (·.getField "type")) = true := by
      rw [hpc, Option.some_bind, hpt]
      rfl
    by_cases hA : (t != "burst" && t != "triggered") = true
    · obtain ⟨r, hr⟩ := hrt ⟨by simpa [bne_iff_ne] using (Bool.and_eq_true _ _ |>.mp hA).1,
        by simpa [bne_iff_ne] using (Bool.and_eq_true _ _ |>.mp hA).2⟩
      have hN : typeofNumber (e.getField "emissionRate") = true := by
        rw [hr]
        rfl
      simp [isEmitterConfig, hrec, ht, hA, hN, hpos, hX, hY, hpcr, hpts]
    · have hA' : (t != "burst" && t != "triggered") = false := by
        revert hA
        cases (t != "burst" && t != "triggered") <;> simp
      simp [isEmitterConfig, hrec, ht, hA', hpos, hX, hY, hpcr, hpts]

/-- A well-formed point-emitter record (passes the import shape-filter). -/
def sampleEmitter : Yaml :=
  .map [("type", .str "point"), ("emissionRate", .num 5),
        ("position", .map [("x", .num 100), ("y", .num 200)]),
        ("particle", .map [("type", .str "sprite"),
                           ("lifetime", .map [("min", .num 1), ("max", .num 2)])])]

/-- An emitter record missing `particle` (fails the import shape-filter). -/
def sampleBadEmitter : Yaml :=
  .map [("type", .str "point"), ("emissionRate", .num 5),
        ("position", .map [("x", .num 0), ("y", .num 0)])]

/-- Witness for C3: an emitters array with one well-formed point emitter and
one record missing `particle` yields exactly the well-formed one. -/
theorem import_shape_filter_witness :
    (yamlToEditorConfig (.map [("emitters", .arr [sampleEmitter, sampleBadEmitter])])).emitters
      = [sampleEmitter] ∧ (isEmitterConfig sampleEmitter = true ↔ emitterShapeSpec sampleEmitter) := by
  constructor
  · rw [import_shape_filter.1 (.map [("emitters", .arr [sampleEmitter, sampleBadEmitter])])
      [sampleEmitter, sampleBadEmitter] rfl]
    rfl
  · exact import_shape_filter.2 sampleEmitter

/-- C8: Import defaults — `system.maxParticles` is the parsed value when it
is a number and 1000 otherwise; `system.autoStart` is the parsed value when
it is a boolean and `true` otherwise; `emitters` is empty whenever the
parsed emitters value is not an array. -/
theorem import_defaults (v : Yaml) :
    ((∀ q, (toParsedYamlConfig v).system.bind (·.getField "maxParticles") = some (.num q) →
        (yamlToEditorConfig v).system.maxParticles = q) ∧
     (typeofNumber ((toParsedYamlConfig v).system.bind (·.getField "maxParticles")) = false →
        (yamlToEditorConfig v).system.maxParticles = 1000)) ∧
    ((∀ b, (toParsedYamlConfig v).system.bind (·.getField "autoStart") = some (.bool b) →
        (yamlToEditorConfig v).system.autoStart = b) ∧
     (typeofBoolean ((toParsedYamlConfig v).system.bind (·.getField "autoStart")) = false →
        (yamlToEditorConfig v).system.autoStart = true)) ∧
    ((∀ items, (toParsedYamlConfig v).emitters ≠ some (.arr items)) →
        (yamlToEditorConfig v).emitters = []) := by
  refine ⟨⟨?_, ?_⟩, ⟨?_, ?_⟩, ?_⟩
  · intro q h
    simp [yamlToEditorConfig_system, h]
  · intro h
    rcases ho : (toParsedYamlConfig v).system.bind (·.getField "maxParticles") with _ | w
    · simp [yamlToEditorConfig_system, ho]
    · cases w <;> rw [ho] at h <;> simp [typeofNumber] at h <;>
        simp [yamlToEditorConfig_system, ho]
  · intro b h
    simp [yamlToEditorConfig_system, h]
  · intro h
    rcases ho : (toParsedYamlConfig v).system.bind (·.getField "autoStart") with _ | w
    · simp [yamlToEditorConfig_system, ho]
    · cases w <;> rw [ho] at h <;> simp [typeofBoolean] at h <;>
        simp [yamlToEditorConfig_system, ho]
  · intro h
    rw [yamlToEditorConfig_emitters]
    rcases ho : (toParsedYamlConfig v).emitters with _ | w
    · rfl
    · cases w with
      | arr items => exact absurd ho (h items)
      | null => rfl
      | bool b => rfl
      | num q => rfl
      | str s => rfl
      | map entries => rfl

/-- Witness for C8 at concrete parsed documents: present numeric/boolean
values survive, absent ones default, non-array emitters give `[]`. -/
theorem import_defaults_witness :
    (yamlToEditorConfig (.map [("system", .map [("maxParticles", .num 5000),
        ("autoStart", .bool false)]), ("emitters", .num 3)])).system.maxParticles = 5000 ∧
    (yamlToEditorConfig (.map [("system", .map [("maxParticles", .num 5000),
        ("autoStart", .bool false)]), ("emitters", .num 3)])).system.autoStart = false ∧
    (yamlToEditorConfig (.map [("system", .map [("maxParticles", .num 5000),
        ("autoStart", .bool false)]), ("emitters", .num 3)])).emitters = [] ∧
    (yamlToEditorConfig (.str "scalar document")).system.maxParticles = 1000 ∧
    (yamlToEditorConfig (.str "scalar document")).system.autoStart = true := by
  refine ⟨(import_defaults _).1.1 5000 rfl, (import_defaults _).2.1.1 false rfl,
    (import_defaults _).2.2 ?_, (import_defaults _).1.2 rfl, (import_defaults _).2.1.2 rfl⟩
  intro items h
  exact Yaml.noConfusion (Option.some.inj h)

/-- C10: a syntactically valid document whose top-level value is not a map
imports (without error) as the full-default config; the import errors only
on syntactically invalid text. -/
theorem import_nonmap_defaults (v : Yaml) (h : ∀ kvs, v ≠ .map kvs) :
    yamlToEditorConfigFromText (.ok v) = .ok defaultEditorConfig ∧
    ∀ w : Yaml, ∃ c, yamlToEditorConfigFromText (.ok w) = .ok c := by
  refine ⟨?_, fun w => ⟨yamlToEditorConfig w, rfl⟩⟩
  have hv : yamlToEditorConfig v = defaultEditorConfig := by
    cases v with
    | map kvs => exact absurd rfl (h kvs)
    | null => rfl
    | bool b => rfl
    | num q => rfl
    | str s => rfl
    | arr items => rfl
  show Except.ok (yamlToEditorConfig v) = _
  rw [hv]

/-- Witness for C10: a top-level list document imports as the full default. -/
theorem import_nonmap_defaults_witness :
    yamlToEditorConfigFromText (.ok (.arr [.num 1, .str "a"])) = .ok defaultEditorConfig :=
  (import_nonmap_defaults (.arr [.num 1, .str "a"]) (fun _kvs hk => Yaml.noConfusion hk)).1

/-! ### Config validator (`validateEditorConfig`) -/

/-- The source's error messages are template literals
`Emitter ${index}: <text>`. -/
def emitterMsg (index : ℕ) (text : String) : String :=
  "Emitter " ++ Nat.repr index ++ ": " ++ text

/-- `emitter.type === s` on the raw `type` value (strict string equality;
a missing or non-string `type` is not equal to any string literal). -/
def isTypeStr (e : Yaml) (s : String) : Bool :=
  match e.getField "type" with
  | some (.str t) => t == s
  | _ => false

/-- JavaScript `o < c` for the numeric case.  The source only evaluates this
after `typeof o === 'number'` short-circuits, so non-numbers yield `false`
here without loss. -/
def jsLtNum (o : Option Yaml) (c : ℚ) : Bool :=
  match o with
  | some (.num q) => decide (q < c)
  | _ => false

/-- The per-emitter checks of `validateEditorConfig`, in source order. -/
def validateEmitter (index : ℕ) (emitter : Yaml) : List String :=
  (if truthy (emitter.getField "type") = false
    then [emitterMsg index "Missing type"] else []) ++
  (if truthy (emitter.getField "position") = false
      || typeofNumber ((emitter.getField "position").bind (·.getField "x")) = false
      || typeofNumber ((emitter.getField "position").bind (·.getField "y")) = false
    then [emitterMsg index "Invalid position"] else []) ++
  (let rateRequired := !isTypeStr emitter "burst" && !isTypeStr emitter "triggered"
   if rateRequired && (!typeofNumber (emitter.getField "emissionRate")
        || jsLtNum (emitter.getField "emissionRate") 0)
    then [emitterMsg index "Invalid emissionRate"] else []) ++
  (if isTypeStr emitter "burst"
    then (if !typeofNumber (emitter.getField "burstCount")
            || jsLtNum (emitter.getField "burstCount") 1
          then [emitterMsg index "burstCount must be a number >= 1"] else [])
    else []) ++
  (if truthy (emitter.getField "particle") = false
    then [emitterMsg index "Missing particle configuration"]
    else
      (if truthy ((emitter.getField "particle").bind (·.getField "type")) = false
        then [emitterMsg index "Missing particle type"] else []) ++
      (if truthy ((emitter.getField "particle").bind (·.getField "lifetime")) = false
        then [emitterMsg index "Missing particle lifetime"] else []))

/-- Result record of `validateEditorConfig` / `validateSequence`. -/
structure ValidationResult where
  valid : Bool
  errors : List String
deriving DecidableEq

/-- `validateEditorConfig` from the source.  The `!config.system` and
`!Array.isArray(config.emitters)` defensive branches are statically
unreachable for a value of the `EditorConfig` model type (the TypeScript
type guarantees both), leaving the range check and the per-emitter walk. -/
def validateEditorConfig (config : EditorConfig) : ValidationResult :=
  let systemErrors :=
    if config.system.maxParticles < 1 ∨ config.system.maxParticles > 10000
      then ["maxParticles must be between 1 and 10000"] else []
  let emitterErrors := (config.emitters.enum.map (fun p => validateEmitter p.1 p.2)).flatten
  let errors := systemErrors ++ emitterErrors
  { valid := errors.isEmpty, errors := errors }

/-- The index prefix is shared, so two messages of one emitter agree iff
their texts agree. -/
theorem emitterMsg_inj (i : ℕ) (s t : String) :
    emitterMsg i s = emitterMsg i t ↔ s = t := by
  constructor
  · intro h
    have h2 := congrArg String.data h
    simp only [emitterMsg, String.data_append] at h2
    exact String.ext (by simpa using List.append_cancel_left h2)
  · intro h
    rw [h]

/-- Membership in a conditional singleton. -/
theorem mem_ite_singleton {α : Type} (a b : α) (c : Prop) [Decidable c] :
    a ∈ (if c then [b] else []) ↔ c ∧ a = b := by
  split <;> simp_all

/-- Membership in a conditional list. -/
theorem mem_ite_list {α : Type} (a : α) (c : Prop) [Decidable c] (l₁ l₂ : List α) :
    a ∈ (if c then l₁ else l₂) ↔ (c ∧ a ∈ l₁) ∨ (¬c ∧ a ∈ l₂) := by
  split <;> simp_all

/-- `isTypeStr` fails exactly when the raw `type` differs from the literal. -/
theorem isTypeStr_false_iff (e : Yaml) (s : String) :
    isTypeStr e s = false ↔ e.getField "type" ≠ some (.str s) := by
  unfold isTypeStr
  rcases h : e.getField "type" with _ | w
  · simp
  · cases w <;> simp

/-- `isTypeStr` holds exactly when the raw `type` is that string literal. -/
theorem isTypeStr_true_iff (e : Yaml) (s : String) :
    isTypeStr e s = true ↔ e.getField "type" = some (.str s) := by
  unfold isTypeStr
  rcases h : e.getField "type" with _ | w
  · simp
  · cases w <;> simp

/-- The not-a-number-or-negative test, characterized. -/
theorem rate_test_iff (o : Option Yaml) (c : ℚ) :
    (!typeofNumber o || jsLtNum o c) = true ↔
      typeofNumber o = false ∨ ∃ q, o = some (.num q) ∧ q < c := by
  rcases o with _ | w
  · simp [typeofNumber, jsLtNum]
  · cases w <;> simp [typeofNumber, jsLtNum]

/-- The claim's condition for an `emissionRate` error: `type` is neither
`'burst'` nor `'triggered'`, and `emissionRate` is not a number or is
negative. -/
def emissionRateErrorSpec (e : Yaml) : Prop :=
  (e.getField "type" ≠ some (.str "burst") ∧ e.getField "type" ≠ some (.str "triggered")) ∧
  (typeofNumber (e.getField "emissionRate") = false ∨
    ∃ q, e.getField "emissionRate" = some (.num q) ∧ q < 0)

/-- The claim's condition for a `burstCount` error: `type` is `'burst'` and
`burstCount` is not a number or is less than 1. -/
def burstCountErrorSpec (e : Yaml) : Prop :=
  e.getField "type" = some (.str "burst") ∧
  (typeofNumber (e.getField "burstCount") = false ∨
    ∃ q, e.getField "burstCount" = some (.num q) ∧ q < 1)

theorem validateEmitter_rate_mem (i : ℕ) (e : Yaml) :
    emitterMsg i "Invalid emissionRate" ∈ validateEmitter i e ↔ emissionRateErrorSpec e := by
  have d1 : ¬("Invalid emissionRate" = "Missing type") := by decide
  have d2 : ¬("Invalid emissionRate" = "Invalid position") := by decide
  have d4 : ¬("Invalid emissionRate" = "burstCount must be a number >= 1") := by decide
  have d5 : ¬("Invalid emissionRate" = "Missing particle configuration") := by decide
  have d6 : ¬("Invalid emissionRate" = "Missing particle type") := by decide
  have d7 : ¬("Invalid emissionRate" = "Missing particle lifetime") := by decide
  simp only [validateEmitter, List.mem_append, mem_ite_singleton, mem_ite_list,
    List.mem_singleton, List.not_mem_nil, emitterMsg_inj, d1, d2, d4, d5, d6, d7,
    and_false, false_or, or_false, and_true, true_and, false_and, and_self, or_self,
    not_false_iff]
  rw [emissionRateErrorSpec]
  simp only [Bool.and_eq_true, Bool.not_eq_true', isTypeStr_false_iff, rate_test_iff]

theorem validateEmitter_burstCount_mem (i : ℕ) (e : Yaml) :
    emitterMsg i "burstCount must be a number >= 1" ∈ validateEmitter i e ↔
      burstCountErrorSpec e := by
  have d1 : ¬("burstCount must be a number >= 1" = "Missing type") := by decide
  have d2 : ¬("burstCount must be a number >= 1" = "Invalid position") := by decide
  have d3 : ¬("burstCount must be a number >= 1" = "Invalid emissionRate") := by decide
  have d5 : ¬("burstCount must be a number >= 1" = "Missing particle configuration") := by decide
  have d6 : ¬("burstCount must be a number >= 1" = "Missing particle type") := by decide
  have d7 : ¬("burstCount must be a number >= 1" = "Missing particle lifetime") := by decide
  simp only [validateEmitter, List.mem_append, mem_ite_singleton, mem_ite_list,
    List.mem_singleton, List.not_mem_nil, emitterMsg_inj, d1, d2, d3, d5, d6, d7,
    and_false, false_or, or_false, and_true, true_and, false_and, and_self, or_self,
    not_false_iff]
  rw [burstCountErrorSpec]
  simp only [Bool.and_eq_true, isTypeStr_true_iff, rate_test_iff]

/-- Sample burst emitter: `burstCount: 10`, no `emissionRate`, otherwise
well-formed. -/
def burstEmitterSample : Yaml :=
  .map [("type", .str "burst"), ("burstCount", .num 10),
        ("position", .map [("x", .num 0), ("y", .num 0)]),
        ("particle", .map [("type", .str "sprite"),
                           ("lifetime", .map [("min", .num 1), ("max", .num 2)])])]

/-- Sample triggered emitter: no `emissionRate`, otherwise well-formed. -/
def triggeredEmitterSample : Yaml :=
  .map [("type", .str "triggered"),
        ("position", .map [("x", .num 0), ("y", .num 0)]),
        ("particle", .map [("type", .str "sprite"),
                           ("lifetime", .map [("min", .num 1), ("max", .num 2)])])]

/-- The burst sample with `burstCount` removed. -/
def burstNoCountSample : Yaml :=
  .map [("type", .str "burst"),
        ("position", .map [("x", .num 0), ("y", .num 0)]),
        ("particle", .map [("type", .str "sprite"),
                           ("lifetime", .map [("min", .num 1), ("max", .num 2)])])]

/-- A one-emitter config around a sample emitter. -/
def mkSingleEmitterConfig (e : Yaml) : EditorConfig :=
  { system := { maxParticles := 1000, autoStart := true }, emitters := [e] }

/-- C7: Validator burst/triggered exemption — an `emissionRate` error is
reported for an emitter exactly when its type is neither `'burst'` nor
`'triggered'` and its `emissionRate` is not a number or negative; a
`burstCount` error exactly when its type is `'burst'` and `burstCount` is
not a number or `< 1`.  Hence a burst emitter with `burstCount: 10` and no
`emissionRate` and a triggered emitter with no `emissionRate` both validate,
while a burst emitter without `burstCount` fails with an error mentioning
`burstCount`. -/
theorem validator_burst_triggered_exemption :
    (∀ (i : ℕ) (e : Yaml),
      emitterMsg i "Invalid emissionRate" ∈ validateEmitter i e ↔ emissionRateErrorSpec e) ∧
    (∀ (i : ℕ) (e : Yaml),
      emitterMsg i "burstCount must be a number >= 1" ∈ validateEmitter i e ↔
        burstCountErrorSpec e) ∧
    validateEditorConfig (mkSingleEmitterConfig burstEmitterSample) = ⟨true, []⟩ ∧
    validateEditorConfig (mkSingleEmitterConfig triggeredEmitterSample) = ⟨true, []⟩ ∧
    validateEditorConfig (mkSingleEmitterConfig burstNoCountSample) =
      ⟨false, [emitterMsg 0 "burstCount must be a number >= 1"]⟩ := by
  refine ⟨validateEmitter_rate_mem, validateEmitter_burstCount_mem, ?_, ?_, ?_⟩ <;> rfl

/-! ### Canvas-resize renormalizer (`recentreEmittersOnResize`) -/

/-- JavaScript `p.x + d` for the numeric case; the source's `shiftPoint`
only ever adds numbers here (its `Vec2` argument type), the `NaN` outcome on
a malformed point is modelled as `null` and excluded by the well-formedness
hypotheses of the theorems below. -/
def jsAddNum : Option Yaml → ℚ → Yaml
  | some (.num q), d => .num (q + d)
  | _, _ => .null

/-- `shiftPoint` from the source: a fresh `{ x: p.x + dx, y: p.y + dy }`. -/
def shiftPoint (p : Yaml) (dx dy : ℚ) : Yaml :=
  .map [("x", jsAddNum (p.getField "x") dx), ("y", jsAddNum (p.getField "y") dy)]

/-- JavaScript property assignment on an object's entry list: replaces the
value at an existing key in place, appends a new key at the end. -/
def setEntries : List (String × Yaml) → String → Yaml → List (String × Yaml)
  | [], k, v => [(k, v)]
  | (k', v') :: rest, k, v =>
    if k' == k then (k', v) :: rest else (k', v') :: setEntries rest k v

/-- JavaScript `obj[k] = v` on the spread copy `{...emitter}` (the spread is
the identity at the value level).  The non-object case never arises: the
source only spreads emitter objects. -/
def setField : Yaml → String → Yaml → Yaml
  | .map kvs, k, v => .map (setEntries kvs k v)
  | _, k, v => .map [(k, v)]

/-- `ABSOLUTE_COORD_TYPES` from the source: emitter types whose listed
fields hold absolute canvas coordinates. -/
def ABSOLUTE_COORD_TYPES : String → Option (List String)
  | "line" => some ["start", "end"]
  | "path" => some ["path", "points"]
  | _ => none

/-- `ABSOLUTE_COORD_TYPES[emitter.type]`: `undefined` for a missing or
non-string `type` and for types outside the table. -/
def absoluteCoordFields (e : Yaml) : Option (List String) :=
  match e.getField "type" with
  | some (.str t) => ABSOLUTE_COORD_TYPES t
  | _ => none

/-- One iteration of the source's `for (const field of fields)` loop: reads
`emitter[field]` from the original emitter, shifts arrays of points and
well-formed `{x, y}` objects, leaves anything else as copied. -/
def shiftEmitterField (dx dy : ℚ) (emitter : Yaml) (updated : Yaml) (field : String) : Yaml :=
  match emitter.getField field with
  | some (.arr ps) => setField updated field (.arr (ps.map (shiftPoint · dx dy)))
  | some v =>
    if isRecord v && (v.getField "x").isSome && (v.getField "y").isSome
      then setField updated field (shiftPoint v dx dy)
      else updated
  | none => updated

/-- The source's `updated` object right after `updated.position =
shiftPoint(emitter.position, dx, dy)` (an absent `position` would make the
source throw; the theorems below assume a well-formed one). -/
def updateEmitterBase (dx dy : ℚ) (emitter : Yaml) : Yaml :=
  setField emitter "position"
    (shiftPoint ((emitter.getField "position").getD .null) dx dy)

/-- The per-emitter body of `recentreEmittersOnResize`'s `map`. -/
def updateEmitter (dx dy : ℚ) (emitter : Yaml) : Yaml :=
  match absoluteCoordFields emitter with
  | none => updateEmitterBase dx dy emitter
  | some fields =>
    fields.foldl (shiftEmitterField dx dy emitter) (updateEmitterBase dx dy emitter)

/-- `recentreEmittersOnResize` from the source. -/
def recentreEmittersOnResize (emitters : List Yaml)
    (oldWidth oldHeight newWidth newHeight : ℚ) : List Yaml :=
  let dx := newWidth / 2 - oldWidth / 2
  let dy := newHeight / 2 - oldHeight / 2
  if dx = 0 ∧ dy = 0 then emitters
  else if emitters.length = 0 then emitters
  else emitters.map (updateEmitter dx dy)

/-- C5: Renormalizer identity short-circuit — when the computed centre
deltas are both zero, or the emitter list is empty, the function returns its
input list itself (the embedding's branches literally return the argument,
mirroring the source's same-reference early returns). -/
theorem recentre_identity (emitters : List Yaml) (oldW oldH newW newH : ℚ)
    (h : (newW / 2 - oldW / 2 = 0 ∧ newH / 2 - oldH / 2 = 0) ∨ emitters = []) :
    recentreEmittersOnResize emitters oldW oldH newW newH = emitters := by
  unfold recentreEmittersOnResize
  rcases h with ⟨h1, h2⟩ | h
  · simp [h1, h2]
  · subst h
    simp

/-- Witness for C5 at the spec's example dimensions. -/
theorem recentre_identity_witness :
    recentreEmittersOnResize [sampleEmitter] 800 600 800 600 = [sampleEmitter] ∧
    recentreEmittersOnResize [] 800 600 1000 800 = [] :=
  ⟨recentre_identity [sampleEmitter] 800 600 800 600 (Or.inl (by norm_num)),
   recentre_identity [] 800 600 1000 800 (Or.inr rfl)⟩

/-- A canonical well-formed point value `{x: a, y: b}`. -/
def vec2 (a b : ℚ) : Yaml :=
  .map [("x", .num a), ("y", .num b)]

theorem shiftPoint_vec2 (a b dx dy : ℚ) :
    shiftPoint (vec2 a b) dx dy = vec2 (a + dx) (b + dy) := rfl

theorem lookup_setEntries_self (l : List (String × Yaml)) (k : String) (v : Yaml) :
    (setEntries l k v).lookup k = some v := by
  induction l with
  | nil => simp [setEntries, List.lookup]
  | cons hd tl ih =>
    obtain ⟨k', v'⟩ := hd
    by_cases h : k' = k
    · subst h
      simp [setEntries, List.lookup]
    · have hb : (k' == k) = false := by simp [h]
      have hb' : (k == k') = false := by simp [Ne.symm h]
      simp [setEntries, List.lookup, hb, hb', ih]

theorem lookup_setEntries_ne (l : List (String × Yaml)) (k : String) (v : Yaml)
    (f : String) (h : f ≠ k) :
    (setEntries l k v).lookup f = l.lookup f := by
  have hfk : (f == k) = false := by simp [h]
  induction l with
  | nil => simp [setEntries, List.lookup, hfk]
  | cons hd tl ih =>
    obtain ⟨k', v'⟩ := hd
    by_cases hk : k' = k
    · subst hk
      simp [setEntries, List.lookup, hfk]
    · have hb : (k' == k) = false := by simp [hk]
      by_cases hf : f = k'
      · subst hf
        simp [setEntries, List.lookup, hb]
      · have hb2 : (f == k') = false := by simp [hf]
        simp [setEntries, List.lookup, hb, hb2, ih]

theorem getField_setField_self (e : Yaml) (k : String) (v : Yaml) :
    (setField e k v).getField k = some v := by
  cases e <;> simp [setField, Yaml.getField, lookup_setEntries_self, List.lookup]

theorem getField_setField_ne (e : Yaml) (k : String) (v : Yaml) (f : String) (h : f ≠ k) :
    (setField e k v).getField f = e.getField f := by
  have hfk : (f == k) = false := by simp [h]
  cases e <;>
    simp [setField, Yaml.getField, lookup_setEntries_ne _ _ _ _ h, List.lookup, hfk]

/-- A field loop iteration at key `f` leaves every other key unchanged. -/
theorem getField_shiftEmitterField_ne (dx dy : ℚ) (e acc : Yaml) (f g : String)
    (h : g ≠ f) :
    (shiftEmitterField dx dy e acc f).getField g = acc.getField g := by
  unfold shiftEmitterField
  rcases hv : e.getField f with _ | v
  · rfl
  · cases v with
    | arr ps => exact getField_setField_ne _ _ _ _ h
    | map kvs =>
      dsimp only
      split_ifs
      · exact getField_setField_ne _ _ _ _ h
      · rfl
    | null => rfl
    | bool b => rfl
    | num q => rfl
    | str t => rfl

/-- The field loop never touches `position`. -/
theorem foldl_shiftEmitterField_position (dx dy : ℚ) (e : Yaml) (l : List String)
    (acc : Yaml) (h : "position" ∉ l) :
    (l.foldl (shiftEmitterField dx dy e) acc).getField "position" =
      acc.getField "position" := by
  induction l generalizing acc with
  | nil => rfl
  | cons hd tl ih =>
    simp only [List.foldl_cons]
    rw [ih _ (fun hm => h (List.mem_cons_of_mem _ hm))]
    exact getField_shiftEmitterField_ne dx dy e acc hd "position"
      (fun he => h (he ▸ List.mem_cons_self _ _))

/-- The coordinate-field table never lists `position`. -/
theorem absoluteCoordFields_position_notin (e : Yaml) (l : List String)
    (h : absoluteCoordFields e = some l) : "position" ∉ l := by
  unfold absoluteCoordFields at h
  split at h
  · rename_i t ht
    unfold ABSOLUTE_COORD_TYPES at h
    split at h
    · obtain rfl : ["start", "end"] = l := Option.some.inj h
      decide
    · obtain rfl : ["path", "points"] = l := Option.some.inj h
      decide
    · exact absurd h (by simp)
  · exact absurd h (by simp)

/-- The fresh `updated` object holds the shifted position. -/
theorem updateEmitterBase_position (dx dy a b : ℚ) (e : Yaml)
    (hp : e.getField "position" = some (vec2 a b)) :
    (updateEmitterBase dx dy e).getField "position" = some (vec2 (a + dx) (b + dy)) := by
  unfold updateEmitterBase
  rw [hp]
  exact getField_setField_self _ _ _

/-- C4: Renormalizer shift semantics — when the centre delta is non-zero the
result is the pointwise `updateEmitter` map, and per emitter: `position` is
translated by `(dx, dy)`; for type `line`, well-formed `start`/`end` points
are translated; for type `path`, the `path`/`points` arrays are mapped
through `shiftPoint`; for every type outside the absolute-coordinate table,
every field other than `position` is unchanged (polygon vertices, area
width/height, circle radius included); and `shiftPoint` on a well-formed
point is exactly translation. -/
theorem recentre_shift (emitters : List Yaml) (oldW oldH newW newH : ℚ)
    (h : ¬(newW / 2 - oldW / 2 = 0 ∧ newH / 2 - oldH / 2 = 0)) :
    recentreEmittersOnResize emitters oldW oldH newW newH =
      emitters.map (updateEmitter (newW / 2 - oldW / 2) (newH / 2 - oldH / 2)) ∧
    (∀ (dx dy : ℚ) (e : Yaml),
      (∀ a b, e.getField "position" = some (vec2 a b) →
        (updateEmitter dx dy e).getField "position" = some (vec2 (a + dx) (b + dy))) ∧
      (e.getField "type" = some (.str "line") →
        ∀ f ∈ (["start", "end"] : List String), ∀ a b, e.getField f = some (vec2 a b) →
          (updateEmitter dx dy e).getField f = some (vec2 (a + dx) (b + dy))) ∧
      (e.getField "type" = some (.str "path") →
        ∀ f ∈ (["path", "points"] : List String), ∀ ps, e.getField f = some (.arr ps) →
          (updateEmitter dx dy e).getField f = some (.arr (ps.map (shiftPoint · dx dy)))) ∧
      (absoluteCoordFields e = none →
        ∀ f, f ≠ "position" → (updateEmitter dx dy e).getField f = e.getField f)) ∧
    (∀ (a b dx dy : ℚ), shiftPoint (vec2 a b) dx dy = vec2 (a + dx) (b + dy)) := by
  refine ⟨?_, ?_, fun a b dx dy => shiftPoint_vec2 a b dx dy⟩
  · unfold recentreEmittersOnResize
    rw [if_neg h]
    cases emitters with
    | nil => rfl
    | cons e es => rfl
  · intro dx dy e
    refine ⟨?_, ?_, ?_, ?_⟩
    · intro a b hp
      unfold updateEmitter
      rcases hf : absoluteCoordFields e with _ | fields
      · exact updateEmitterBase_position dx dy a b e hp
      · rw [foldl_shiftEmitterField_position dx dy e fields _
          (absoluteCoordFields_position_notin e fields hf)]
        exact updateEmitterBase_position dx dy a b e hp
    · intro htype f hfmem a b hfield
      have habs : absoluteCoordFields e = some ["start", "end"] := by
        unfold absoluteCoordFields
        rw [htype]
        rfl
      unfold updateEmitter
      rw [habs]
      simp only [List.foldl_cons, List.foldl_nil]
      rcases List.mem_pair.mp hfmem with rfl | rfl
      · rw [getField_shiftEmitterField_ne dx dy e _ "end" "start" (by decide)]
        unfold shiftEmitterField
        rw [hfield]
        exact getField_setField_self _ _ _
      · unfold shiftEmitterField
        conv_lhs => rw [hfield]
        exact getField_setField_self _ _ _
    · intro htype f hfmem ps hfield
      have habs : absoluteCoordFields e = some ["path", "points"] := by
        unfold absoluteCoordFields
        rw [htype]
        rfl
      unfold updateEmitter
      rw [habs]
      simp only [List.foldl_cons, List.foldl_nil]
      rcases List.mem_pair.mp hfmem with rfl | rfl
      · rw [getField_shiftEmitterField_ne dx dy e _ "points" "path" (by decide)]
        unfold shiftEmitterField
        rw [hfield]
        exact getField_setField_self _ _ _
      · unfold shiftEmitterField
        conv_lhs => rw [hfield]
        exact getField_setField_self _ _ _
    · intro hnone f hfne
      unfold updateEmitter
      rw [hnone]
      exact getField_setField_ne _ _ _ _ hfne

/-- A well-formed line emitter with absolute `start`/`end` segments (the
spec's renormalizer example). -/
def lineEmitterSample : Yaml :=
  .map [("type", .str "line"), ("emissionRate", .num 10),
        ("position", vec2 400 300),
        ("start", vec2 300 300), ("end", vec2 500 300),
        ("particle", .map [("type", .str "sprite"),
                           ("lifetime", .map [("min", .num 1), ("max", .num 2)])])]

/-- A polygon emitter whose `vertices` are relative to `position`. -/
def polygonEmitterSample : Yaml :=
  .map [("type", .str "polygon"), ("emissionRate", .num 10),
        ("position", vec2 400 300),
        ("vertices", .arr [vec2 0 0, vec2 50 0, vec2 25 40]),
        ("particle", .map [("type", .str "sprite"),
                           ("lifetime", .map [("min", .num 1), ("max", .num 2)])])]

/-- A circle emitter whose `radius` is a magnitude, not a position. -/
def circleEmitterSample : Yaml :=
  .map [("type", .str "circle"), ("emissionRate", .num 10),
        ("position", vec2 400 300), ("radius", .num 75),
        ("particle", .map [("type", .str "sprite"),
                           ("lifetime", .map [("min", .num 1), ("max", .num 2)])])]

/-- Witness for C4 at the spec's 800×600 → 1000×800 resize. -/
theorem recentre_shift_witness :
    recentreEmittersOnResize [lineEmitterSample] 800 600 1000 800 =
      [updateEmitter 100 100 lineEmitterSample] ∧
    (updateEmitter 100 100 lineEmitterSample).getField "position" = some (vec2 500 400) ∧
    (updateEmitter 100 100 lineEmitterSample).getField "start" = some (vec2 400 400) ∧
    (updateEmitter 100 100 lineEmitterSample).getField "end" = some (vec2 600 400) ∧
    (updateEmitter 100 100 polygonEmitterSample).getField "vertices" =
      polygonEmitterSample.getField "vertices" ∧
    (updateEmitter 100 100 circleEmitterSample).getField "radius" =
      circleEmitterSample.getField "radius" := by
  have hnz : ¬((1000 : ℚ) / 2 - 800 / 2 = 0 ∧ (800 : ℚ) / 2 - 600 / 2 = 0) := by norm_num
  have H := recentre_shift [lineEmitterSample] 800 600 1000 800 hnz
  have hd1 : (1000 : ℚ) / 2 - 800 / 2 = 100 := by norm_num
  have hd2 : (800 : ℚ) / 2 - 600 / 2 = 100 := by norm_num
  refine ⟨?_, ?_, ?_, ?_, ?_, ?_⟩
  · rw [H.1, hd1, hd2]
    rfl
  · have h1 := (H.2.1 100 100 lineEmitterSample).1 400 300 rfl
    norm_num at h1
    exact h1
  · have h2 := (H.2.1 100 100 lineEmitterSample).2.1 rfl "start" (by simp) 300 300 rfl
    norm_num at h2
    exact h2
  · have h3 := (H.2.1 100 100 lineEmitterSample).2.1 rfl "end" (by simp) 500 300 rfl
    norm_num at h3
    exact h3
  · exact (H.2.1 100 100 polygonEmitterSample).2.2.2 rfl "vertices" (by decide)
  · exact (H.2.1 100 100 circleEmitterSample).2.2.2 rfl "radius" (by decide)

/-- Witness for C7: the membership characterizations applied at a negative
`emissionRate` and at a burst emitter lacking `burstCount`. -/
theorem validator_burst_triggered_exemption_witness :
    emissionRateErrorSpec (.map [("type", .str "point"), ("emissionRate", .num (-5)),
      ("position", vec2 0 0),
      ("particle", .map [("type", .str "sprite"), ("lifetime", .num 1)])]) ∧
    burstCountErrorSpec burstNoCountSample :=
  ⟨(validator_burst_triggered_exemption.1 0 (.map [("type", .str "point"),
      ("emissionRate", .num (-5)), ("position", vec2 0 0),
      ("particle", .map [("type", .str "sprite"), ("lifetime", .num 1)])])).mp (by decide),
   (validator_burst_triggered_exemption.2.1 3 burstNoCountSample).mp (by decide)⟩

/-! ### Sequence detector (`sequenceDetector.ts`)

Files are represented by their names: the detector inspects only
`file.name`.
-/

/-- The `(base, number, padding, extension)` capture of `extractFrameInfo`. -/
structure FrameInfo where
  base : String
  number : ℕ
  padding : ℕ
  extension : String
deriving DecidableEq

/-- `parseInt(numberStr, 10)` on a digit string. -/
def parseDigits (s : List Char) : ℕ :=
  s.foldl (fun n c => n * 10 + (c.toNat - Char.toNat '0')) 0

/-- Split a filename into the part before its last dot and the (non-empty,
dot-free) extension after it — the `\.([^.]+)$` tail of the source's
pattern.  `none` when there is no dot or the extension would be empty. -/
def splitExt (l : List Char) : Option (List Char × List Char) :=
  let rev := l.reverse
  let extRev := rev.takeWhile (· ≠ '.')
  if extRev.length = 0 then none
  else if extRev.length = rev.length then none
  else some ((rev.drop (extRev.length + 1)).reverse, extRev.reverse)

/-- Assemble the source's returned record: the captured base gets an
underscore appended whenever the whole filename contains one
(`base + (filename.includes('_') ? '_' : '')`). -/
def mkFrameInfo (baseRaw digits ext : List Char) (filename : String) : FrameInfo :=
  { base := String.mk baseRaw ++ (if filename.toList.contains '_' then "_" else "")
    number := parseDigits digits
    padding := digits.length
    extension := String.mk ext }

/-- `extractFrameInfo` from the source: the leftmost-shortest match of
`^(.+?)_?(\d+)\.([^.]+)$`.  The lazy `(.+?)` makes the engine pick the
smallest non-empty base such that the remainder of the stem is an optional
underscore (preferred when present) followed by the (greedy) digit run that
ends at the last dot.  With `d` the length of the stem's maximal digit
suffix, that base is: everything before an underscore preceding the digits
(underscore branch), else everything before the digits, else — for an
all-digit stem — its first character. -/
def extractFrameInfo (filename : String) : Option FrameInfo :=
  match splitExt filename.toList with
  | none => none
  | some (stem, ext) =>
    let n := stem.length
    let d := (stem.reverse.takeWhile Char.isDigit).length
    if d = 0 then none
    else if 2 ≤ n - d ∧ stem.get? (n - d - 1) = some '_' then
      some (mkFrameInfo (stem.take (n - d - 1)) (stem.drop (n - d)) ext filename)
    else if 1 ≤ n - d then
      some (mkFrameInfo (stem.take (n - d)) (stem.drop (n - d)) ext filename)
    else if 2 ≤ d then
      some (mkFrameInfo (stem.take 1) (stem.drop 1) ext filename)
    else none

/-- The grouping key `` `${base}_${extension}` ``. -/
def groupKey (i : FrameInfo) : String :=
  i.base ++ "_" ++ i.extension

/-- Keys of a JavaScript `Map` in insertion order: first occurrences. -/
def firstKeys (l : List String) : List String :=
  l.foldl (fun acc k => if k ∈ acc then acc else acc ++ [k]) []

/-- The files (paired with their captures) that survive `extractFrameInfo`. -/
def frameInfosOf (files : List String) : List (String × FrameInfo) :=
  files.filterMap (fun f => (extractFrameInfo f).map (fun i => (f, i)))

/-- The largest `(base, extension)` group (first-encountered wins ties),
matching the source's `Map` grouping plus `group.length > largestGroup.length`
scan. -/
def largestGroupOf (files : List String) : List (String × FrameInfo) :=
  let frameInfos := frameInfosOf files
  let keys := firstKeys (frameInfos.map (fun p => groupKey p.2))
  (keys.map (fun k => frameInfos.filter (fun p => groupKey p.2 == k))).foldl
    (fun acc g => if g.length > acc.length then g else acc) []

/-- The largest group sorted ascending by frame number — the source's
`largestGroup.sort((a, b) => a.info.number - b.info.number)`.  JavaScript's
`Array.prototype.sort` is required to be stable, so it is modelled by the
stable `insertionSort` on the same key. -/
def sortedGroupOf (files : List String) : List (String × FrameInfo) :=
  (largestGroupOf files).insertionSort (fun a b => a.2.number ≤ b.2.number)

instance : IsTotal (String × FrameInfo) (fun a b => a.2.number ≤ b.2.number) :=
  ⟨fun a b => Nat.le_total a.2.number b.2.number⟩

instance : IsTrans (String × FrameInfo) (fun a b => a.2.number ≤ b.2.number) :=
  ⟨fun _ _ _ => Nat.le_trans⟩

/-- The most frequent value, first-encountered winning ties — the source's
`paddingCounts` scan with strict `count > maxCount`. -/
def modeFirst (l : List ℕ) : ℕ :=
  (l.foldl (fun acc k => if decide (k ∈ acc) then acc else acc ++ [k]) [] |>.foldl
    (fun acc k =>
      let c := (l.filter (fun x => x == k)).length
      if c > acc.2 then (k, c) else acc) ((0 : ℕ), (0 : ℕ))).1

/-- `String.prototype.padStart(n, '0')`. -/
def padStart (s : String) (n : ℕ) : String :=
  String.mk (List.replicate (n - s.length) '0') ++ s

/-- `.replace(/_$/, '')`: drop one trailing underscore if present. -/
def stripTrailingUnderscore (s : String) : String :=
  if s.toList.getLast? = some '_' then String.mk s.toList.dropLast else s

/-- `SequenceInfo` from the source (files as names). -/
structure SequenceInfo where
  baseName : String
  pattern : String
  startFrame : ℕ
  endFrame : ℕ
  padding : ℕ
  gaps : List ℕ
  files : List String
deriving DecidableEq

/-- The record built from the sorted largest group (`first :: rest`), per
the tail of `detectSequence`: gap scan over `(firstN, lastN)` exclusive,
modal padding, padded `{start-end}` pattern, files in sorted order. -/
def buildSequenceInfo (first : String × FrameInfo)
    (rest : List (String × FrameInfo)) : SequenceInfo :=
  let sorted := first :: rest
  let lastI := sorted.getLast (List.cons_ne_nil _ _)
  let firstN := first.2.number
  let lastN := lastI.2.number
  let frameNumbers := sorted.map (fun p => p.2.number)
  let maxPadding := modeFirst (sorted.map (fun p => p.2.padding))
  { baseName := stripTrailingUnderscore first.2.base
    pattern := first.2.base ++ "\x7b" ++ padStart (Nat.repr firstN) maxPadding ++ "-"
      ++ padStart (Nat.repr lastN) maxPadding ++ "\x7d" ++ "." ++ first.2.extension
    startFrame := firstN
    endFrame := lastN
    padding := maxPadding
    gaps := (List.range' (firstN + 1) (lastN - (firstN + 1))).filter
      (fun i => decide (i ∉ frameNumbers))
    files := sorted.map (fun p => p.1) }

/-- `detectSequence` from the source. -/
def detectSequence (files : List String) : Option SequenceInfo :=
  if files.length < 2 then none
  else if (frameInfosOf files).length < 2 then none
  else if (largestGroupOf files).length < 2 then none
  else
    match sortedGroupOf files with
    | [] => none
    | first :: rest => some (buildSequenceInfo first rest)

/-- Result record of `validateSequence`. -/
structure SequenceValidation where
  valid : Bool
  warnings : List String
deriving DecidableEq

/-- `validateSequence` from the source: gap warning, frame-count-shortfall
warning, under-two-frames warning; `valid` is `warnings.length === 0`. -/
def validateSequence (s : SequenceInfo) : SequenceValidation :=
  let gapWarnings :=
    if 0 < s.gaps.length then
      ["Missing frames: " ++ String.intercalate ", " (s.gaps.map Nat.repr)
        ++ " (" ++ Nat.repr s.gaps.length ++ " gaps)"]
    else []
  let expectedFrames := s.endFrame - s.startFrame + 1
  let actualFrames := s.files.length
  let countWarnings :=
    if actualFrames < expectedFrames then
      ["Expected " ++ Nat.repr expectedFrames ++ " frames, found "
        ++ Nat.repr actualFrames]
    else []
  let minWarnings := if actualFrames < 2 then ["Sequence has less than 2 frames"] else []
  let warnings := gapWarnings ++ countWarnings ++ minWarnings
  { valid := warnings.isEmpty, warnings := warnings }

/-- A `SequenceInfo` with a gap whose file count still matches the frame
range (a duplicate frame number filling the count). -/
def gapOnlySequenceSample : SequenceInfo :=
  { baseName := "coin", pattern := "coin_\x7b000-002\x7d.png", startFrame := 0,
    endFrame := 2, padding := 3, gaps := [1],
    files := ["coin_000.png", "coin_002.png", "coin_002.png"] }

/-- C2 evaluation: on a gap-only `SequenceInfo` (no frame-count shortfall)
`validateSequence` warns about the gap but returns `valid = false`, because
the source computes `valid` as `warnings.length === 0` over all warnings —
the gap warning alone invalidates, contradicting the spec (and the repo's
own test, which expects `valid` to be `true` here). -/
theorem validateSequence_gap_only_invalid :
    validateSequence gapOnlySequenceSample =
      { valid := false, warnings := ["Missing frames: 1 (1 gaps)"] } := by
  decide

/-- Projection lemmas for `buildSequenceInfo`. -/
theorem buildSequenceInfo_startFrame (first : String × FrameInfo)
    (rest : List (String × FrameInfo)) :
    (buildSequenceInfo first rest).startFrame = first.2.number := rfl

theorem buildSequenceInfo_endFrame (first : String × FrameInfo)
    (rest : List (String × FrameInfo)) :
    (buildSequenceInfo first rest).endFrame =
      ((first :: rest).getLast (List.cons_ne_nil _ _)).2.number := rfl

theorem buildSequenceInfo_files (first : String × FrameInfo)
    (rest : List (String × FrameInfo)) :
    (buildSequenceInfo first rest).files = (first :: rest).map (fun p => p.1) := rfl

theorem buildSequenceInfo_gaps (first : String × FrameInfo)
    (rest : List (String × FrameInfo)) :
    (buildSequenceInfo first rest).gaps =
      (List.range' (first.2.number + 1)
          (((first :: rest).getLast (List.cons_ne_nil _ _)).2.number
            - (first.2.number + 1))).filter
        (fun i => decide (i ∉ (first :: rest).map (fun p => p.2.number))) := rfl

/-- Every member of a `≤`-sorted list is bounded by its last element. -/
theorem sorted_mem_le_getLast :
    ∀ (l : List ℕ) (hl : l ≠ []), l.Sorted (· ≤ ·) → ∀ x ∈ l, x ≤ l.getLast hl := by
  intro l
  induction l with
  | nil => intro hl; exact absurd rfl hl
  | cons a t ih =>
    intro hl hs x hx
    rcases List.mem_cons.mp hx with rfl | hx2
    · cases t with
      | nil => simp [List.getLast_singleton']
      | cons b t2 =>
        rw [List.getLast_cons_cons]
        exact List.rel_of_sorted_cons hs _ (List.getLast_mem _)
    · cases t with
      | nil => simp at hx2
      | cons b t2 =>
        rw [List.getLast_cons_cons]
        exact ih (by simp) hs.of_cons x hx2

/-- C9: on every successful detection the returned files are the largest
group sorted ascending by frame number, `startFrame`/`endFrame` are the
group's minimal/maximal frame numbers, and `gaps` holds exactly the
integers strictly between them that are missing from the group's
frame-number set; in particular the `coin_000/001/002` example detects as
the spec states. -/
theorem detectSequence_spec :
    (∀ (files : List String) (info : SequenceInfo), detectSequence files = some info →
      info.files = (sortedGroupOf files).map (fun p => p.1) ∧
      ((sortedGroupOf files).map (fun p => p.2.number)).Sorted (· ≤ ·) ∧
      (sortedGroupOf files).Perm (largestGroupOf files) ∧
      (info.startFrame ∈ (largestGroupOf files).map (fun p => p.2.number) ∧
        ∀ x ∈ (largestGroupOf files).map (fun p => p.2.number), info.startFrame ≤ x) ∧
      (info.endFrame ∈ (largestGroupOf files).map (fun p => p.2.number) ∧
        ∀ x ∈ (largestGroupOf files).map (fun p => p.2.number), x ≤ info.endFrame) ∧
      (∀ i : ℕ, i ∈ info.gaps ↔
        info.startFrame < i ∧ i < info.endFrame ∧
          i ∉ (largestGroupOf files).map (fun p => p.2.number))) ∧
    detectSequence ["coin_000.png", "coin_001.png", "coin_002.png"] =
      some { baseName := "coin", pattern := "coin_\x7b000-002\x7d.png", startFrame := 0,
             endFrame := 2, padding := 3, gaps := [],
             files := ["coin_000.png", "coin_001.png", "coin_002.png"] } := by
  constructor
  · intro files info h
    unfold detectSequence at h
    split_ifs at h with h1 h2 h3
    rcases hs : sortedGroupOf files with _ | ⟨first, rest⟩
    · rw [hs] at h
      exact absurd h (by simp)
    · rw [hs] at h
      obtain rfl : info = buildSequenceInfo first rest := (Option.some.inj h).symm
      have hperm : (sortedGroupOf files).Perm (largestGroupOf files) :=
        List.perm_insertionSort _ _
      have hsorted : (sortedGroupOf files).Sorted
          (fun a b => a.2.number ≤ b.2.number) :=
        List.sorted_insertionSort _ _
      have hsortednl : ((sortedGroupOf files).map (fun p => p.2.number)).Sorted (· ≤ ·) :=
        List.Pairwise.map _ (fun a b hab => hab) hsorted
      have hsorted2 : (first :: rest).Sorted (fun a b => a.2.number ≤ b.2.number) :=
        hs ▸ hsorted
      have hmem_iff : ∀ p : String × FrameInfo,
          p ∈ (first :: rest) ↔ p ∈ largestGroupOf files := by
        intro p
        rw [← hs]
        exact hperm.mem_iff
      have hmax : ∀ x ∈ (largestGroupOf files).map (fun p => p.2.number),
          x ≤ ((first :: rest).getLast (List.cons_ne_nil _ _)).2.number := by
        intro x hx
        obtain ⟨p, hp, rfl⟩ := List.mem_map.mp hx
        have hpmem : p ∈ (first :: rest) := (hmem_iff p).mpr hp
        have hnl : p.2.number ∈ (first :: rest).map (fun q => q.2.number) :=
          List.mem_map_of_mem _ hpmem
        have hsnl : ((first :: rest).map (fun q => q.2.number)).Sorted (· ≤ ·) := by
          rw [← hs]
          exact hsortednl
        have := sorted_mem_le_getLast _ (by simp) hsnl _ hnl
        rwa [List.getLast_map] at this
      have hmin : ∀ x ∈ (largestGroupOf files).map (fun p => p.2.number),
          first.2.number ≤ x := by
        intro x hx
        obtain ⟨p, hp, rfl⟩ := List.mem_map.mp hx
        have hpmem : p ∈ (first :: rest) := (hmem_iff p).mpr hp
        rcases List.mem_cons.mp hpmem with rfl | hp2
        · exact le_refl _
        · exact List.rel_of_sorted_cons hsorted2 _ hp2
      have hfirstmem : first.2.number ∈ (largestGroupOf files).map (fun p => p.2.number) :=
        List.mem_map_of_mem _ ((hmem_iff first).mp (List.mem_cons_self _ _))
      have hlastmem : ((first :: rest).getLast (List.cons_ne_nil _ _)).2.number
          ∈ (largestGroupOf files).map (fun p => p.2.number) :=
        List.mem_map_of_mem _ ((hmem_iff _).mp (List.getLast_mem _))
      have hse : first.2.number ≤ ((first :: rest).getLast (List.cons_ne_nil _ _)).2.number :=
        hmax _ hfirstmem
      refine ⟨?_, ?_, ?_, ⟨?_, ?_⟩, ⟨?_, ?_⟩, ?_⟩
      · rw [buildSequenceInfo_files]
      · rw [← hs] at *
        exact hsortednl
      · rw [← hs] at *
        exact hperm
      · rw [buildSequenceInfo_startFrame]
        exact hfirstmem
      · intro x hx
        rw [buildSequenceInfo_startFrame]
        exact hmin x hx
      · rw [buildSequenceInfo_endFrame]
        exact hlastmem
      · intro x hx
        rw [buildSequenceInfo_endFrame]
        exact hmax x hx
      · intro i
        rw [buildSequenceInfo_gaps, buildSequenceInfo_startFrame, buildSequenceInfo_endFrame]
        rw [List.mem_filter, List.mem_range'_1]
        constructor
        · rintro ⟨⟨hlo, hhi⟩, hnotin⟩
          refine ⟨by omega, by omega, ?_⟩
          intro hin
          rw [decide_eq_true_eq] at hnotin
          refine hnotin ?_
          obtain ⟨p, hp, rfl⟩ := List.mem_map.mp hin
          exact List.mem_map_of_mem _ ((hmem_iff p).mpr hp)
        · rintro ⟨hlo, hhi, hnotin⟩
          refine ⟨⟨by omega, by omega⟩, ?_⟩
          rw [decide_eq_true_eq]
          intro hin
          refine hnotin ?_
          obtain ⟨p, hp, rfl⟩ := List.mem_map.mp hin
          exact List.mem_map_of_mem _ ((hmem_iff p).mp hp)
  · rfl

/-- The spec's gap example file list. -/
def gapFiles : List String :=
  ["frame_00.png", "frame_01.png", "frame_03.png", "frame_04.png"]

/-- What `detectSequence` returns on `gapFiles`. -/
def gapDetectedInfo : SequenceInfo :=
  { baseName := "frame", pattern := "frame_\x7b00-04\x7d.png", startFrame := 0,
    endFrame := 4, padding := 2, gaps := [2], files := gapFiles }

/-- Witness for C9 on the gap example: the sorted-files equation and the
gap characterization instantiated at the missing frame 2. -/
theorem detectSequence_spec_witness :
    gapDetectedInfo.files = (sortedGroupOf gapFiles).map (fun p => p.1) ∧
    (2 ∈ gapDetectedInfo.gaps ↔
      gapDetectedInfo.startFrame < 2 ∧ 2 < gapDetectedInfo.endFrame ∧
        2 ∉ (largestGroupOf gapFiles).map (fun p => p.2.number)) := by
  have H := detectSequence_spec.1 gapFiles gapDetectedInfo (by rfl)
  exact ⟨H.1, H.2.2.2.2.2 2⟩

end Swizzle
